import Mathlib

/-!
Shallow embedding of the ACRA collector (`src/main.rs`).

The program is a single HTTP ingestion handler (`ReportHandler::handle`)
that, for each POST to `/report`:
  1. reads the raw body,
  2. appends it (plus a newline, via `writeln!`) to `crashes.txt`,
  3. parses it with `serde_json::from_str::<Report>`,
  4. composes an e-mail (subject + text body) from the parsed report,
  5. sends it over SMTP,
  6. answers `200 Ok` on success and `500 InternalServerError` on any
     handled failure; the address parses `config.email_from.parse().unwrap()`
     and `config.email_to.parse().unwrap()` panic on malformed addresses.

External effects (body read, file open/write, SMTP send) and the external
JSON text parser (`serde_json`, a dependency, not part of this repository)
are modelled by an `Env` of outcomes and an abstract
`parse : String → Option Report` argument; theorems quantify over them.
The derived `Deserialize` for the repository's `Report` struct is embedded
concretely at the JSON-value level (`reportFromJson`).
-/

namespace Acra

/-- JSON values, as `serde_json::Value`: numbers restricted to integers
(the fields the program reads numerically are `u64`; fractional numbers
play no role in the claims). Objects are field lists in document order. -/
inductive Json : Type where
  | null : Json
  | bool (b : Bool) : Json
  | num (n : Int) : Json
  | str (s : String) : Json
  | arr (xs : List Json) : Json
  | obj (fields : List (String × Json)) : Json

/-- `struct Config` from `src/main.rs` (u16 ports as `Nat`). -/
structure Config : Type where
  host : String
  port : Nat
  email_from : String
  email_to : String
  smtp_host : String
  smtp_port : Nat
  smtp_user : String
  smtp_pass : String
deriving DecidableEq, Repr

/-- `struct Report` from `src/main.rs`. `APP_VERSION_CODE : u64` is a `Nat`
(range-checked at decode time); `CUSTOM_DATA : HashMap<String, Value>` is an
association list with distinct keys (iteration order is incidental). -/
structure Report : Type where
  ANDROID_VERSION : String
  APP_VERSION_CODE : Nat
  APP_VERSION_NAME : String
  CUSTOM_DATA : List (String × Json)
  PACKAGE_NAME : String
  REPORT_ID : String
  STACK_TRACE : String

/-- Two hexadecimal digits of `n % 256`, lowercase (for `\u00XX` escapes). -/
def hex2 (n : Nat) : String :=
  String.mk [Nat.digitChar (n / 16 % 16), Nat.digitChar (n % 16)]

/-- serde_json's string escaping for one character: `"` and `\` escaped,
`\b \t \n \f \r` shorthands, other control characters as `\u00XX`. -/
def escapeChar (c : Char) : String :=
  if c = '"' then "\\\""
  else if c = '\\' then "\\\\"
  else if c = '\x08' then "\\b"
  else if c = '\x09' then "\\t"
  else if c = '\x0a' then "\\n"
  else if c = '\x0c' then "\\f"
  else if c = '\x0d' then "\\r"
  else if c.toNat < 0x20 then "\\u00" ++ hex2 c.toNat
  else String.singleton c

/-- serde_json's escaping of a string's contents (without the quotes). -/
def escapeString (s : String) : String :=
  String.join (s.data.map escapeChar)

mutual

/-- Compact rendering of a JSON value: the `Display` implementation of
`serde_json::Value`, used by `format!("{}", val)` for custom-data values. -/
def renderJson : Json → String
  | .null => "null"
  | .bool b => if b then "true" else "false"
  | .num n => toString n
  | .str s => "\"" ++ escapeString s ++ "\""
  | .arr xs => "[" ++ renderArr xs ++ "]"
  | .obj fs => "\x7b" ++ renderObj fs ++ "\x7d"

/-- Comma-separated rendering of array elements. -/
def renderArr : List Json → String
  | [] => ""
  | [x] => renderJson x
  | x :: y :: rest => renderJson x ++ "," ++ renderArr (y :: rest)

/-- Comma-separated rendering of object fields. -/
def renderObj : List (String × Json) → String
  | [] => ""
  | [kv] => "\"" ++ escapeString kv.1 ++ "\":" ++ renderJson kv.2
  | kv :: kv2 :: rest =>
      "\"" ++ escapeString kv.1 ++ "\":" ++ renderJson kv.2 ++ "," ++
        renderObj (kv2 :: rest)

end

/-- Decoding a JSON value as a Rust `String` field. -/
def asString : Json → Option String
  | .str s => some s
  | _ => none

/-- Decoding a JSON value as a `u64` field: an integral number in
`[0, 2^64)`; negative numbers are rejected. -/
def asU64 : Json → Option Nat
  | .num n => if 0 ≤ n ∧ n < 2 ^ 64 then some n.toNat else none
  | _ => none

/-- `HashMap` insertion on the association-list model: an existing key's
value is replaced, a new key is appended. -/
def hmInsert : List (String × Json) → String → Json → List (String × Json)
  | [], k, v => [(k, v)]
  | (k0, v0) :: rest, k, v =>
      if k0 = k then (k0, v) :: rest else (k0, v0) :: hmInsert rest k v

/-- Building the `HashMap<String, Value>` from the entries of a JSON
object, in order (a repeated key keeps the last value, as `HashMap`). -/
def hmFromList (fs : List (String × Json)) : List (String × Json) :=
  fs.foldl (fun acc kv => hmInsert acc kv.1 kv.2) []

/-- Decoding a JSON value as the `CUSTOM_DATA : HashMap<String, Value>`
field: any JSON object is accepted. -/
def asCustomData : Json → Option (List (String × Json))
  | .obj fs => some (hmFromList fs)
  | _ => none

/-- The in-progress field set of the derived `Deserialize` visitor for
`Report`: each field is `none` until its entry is seen. -/
structure PartialReport : Type where
  android : Option String
  code : Option Nat
  name : Option String
  custom : Option (List (String × Json))
  pkg : Option String
  rid : Option String
  stack : Option String

/-- The visitor's initial state: no field seen yet. -/
def emptyPartial : PartialReport :=
  ⟨none, none, none, none, none, none, none⟩

/-- Recording one decoded field value: a second occurrence is a
"duplicate field" error, a value its decoder rejects is an error. -/
def setField {α : Type} (cur : Option α) (dec : Option α) :
    Option (Option α) :=
  match cur, dec with
  | some _, _ => none
  | none, none => none
  | none, some x => some (some x)

/-- Processing one object entry, as the derived `Deserialize` does:
a known field name is decoded and recorded, an unknown one is ignored. -/
def stepField (pr : PartialReport) (kv : String × Json) :
    Option PartialReport :=
  if kv.1 = "ANDROID_VERSION" then
    (setField pr.android (asString kv.2)).map
      (fun x => { pr with android := x })
  else if kv.1 = "APP_VERSION_CODE" then
    (setField pr.code (asU64 kv.2)).map (fun x => { pr with code := x })
  else if kv.1 = "APP_VERSION_NAME" then
    (setField pr.name (asString kv.2)).map (fun x => { pr with name := x })
  else if kv.1 = "CUSTOM_DATA" then
    (setField pr.custom (asCustomData kv.2)).map
      (fun x => { pr with custom := x })
  else if kv.1 = "PACKAGE_NAME" then
    (setField pr.pkg (asString kv.2)).map (fun x => { pr with pkg := x })
  else if kv.1 = "REPORT_ID" then
    (setField pr.rid (asString kv.2)).map (fun x => { pr with rid := x })
  else if kv.1 = "STACK_TRACE" then
    (setField pr.stack (asString kv.2)).map (fun x => { pr with stack := x })
  else some pr

/-- Folding the visitor over the object's entries in order. -/
def fillFields (pr : PartialReport) :
    List (String × Json) → Option PartialReport
  | [] => some pr
  | kv :: rest =>
      match stepField pr kv with
      | none => none
      | some pr2 => fillFields pr2 rest

/-- Final assembly: every field must have been seen
("missing field" error otherwise). -/
def mkReport (pr : PartialReport) : Option Report :=
  pr.android.bind fun a =>
  pr.code.bind fun c =>
  pr.name.bind fun n =>
  pr.custom.bind fun cd =>
  pr.pkg.bind fun p =>
  pr.rid.bind fun ri =>
  pr.stack.map fun s => ⟨a, c, n, cd, p, ri, s⟩

/-- The derived `serde::Deserialize` for `Report`, at the JSON-value
level: only an object is accepted; its entries are visited in order. -/
def reportFromJson : Json → Option Report
  | .obj fs => (fillFields emptyPartial fs).bind mkReport
  | _ => none

/-- One line of the custom-data section:
`format!("  {} = {}\r\n", &key, &val)`. -/
def customLine (kv : String × Json) : String :=
  "  " ++ kv.1 ++ " = " ++ renderJson kv.2 ++ "\r\n"

/-- The custom-data section of the e-mail text: present exactly when
`CUSTOM_DATA` is non-empty (`if !report.CUSTOM_DATA.is_empty()`). -/
def customSection (cd : List (String × Json)) : String :=
  if cd.isEmpty then ""
  else "\r\nCustom data:\r\n\r\n" ++ String.join (cd.map customLine)

/-- The e-mail body built by the sequence of `email_text.push_str` calls. -/
def emailText (r : Report) : String :=
  "A new crash happened:\r\n\r\n"
    ++ ("- Report ID: " ++ r.REPORT_ID ++ "\r\n")
    ++ ("- Version: " ++ r.APP_VERSION_NAME ++ " ("
          ++ toString r.APP_VERSION_CODE ++ ")\r\n")
    ++ ("- Android version: " ++ r.ANDROID_VERSION ++ "\r\n")
    ++ customSection r.CUSTOM_DATA
    ++ ("\r\nStack trace:\r\n\r\n" ++ r.STACK_TRACE)

/-- The e-mail subject:
`format!("New crash of {} ({})", report.PACKAGE_NAME, report.APP_VERSION_NAME)`. -/
def subjectOf (r : Report) : String :=
  "New crash of " ++ r.PACKAGE_NAME ++ " (" ++ r.APP_VERSION_NAME ++ ")"

/-- A composed notification message: from, to, subject, body. -/
structure Email : Type where
  emailFrom : String
  emailTo : String
  subject : String
  body : String
deriving DecidableEq, Repr

/-- The message assembled by `Message::builder().from(..).to(..)
.subject(..).body(&email_text)`, as data. -/
def composeEmail (cfg : Config) (r : Report) : Email :=
  { emailFrom := cfg.email_from
    emailTo := cfg.email_to
    subject := subjectOf r
    body := emailText r }

/-- Appending one payload to `crashes.txt`:
`writeln!(file, "{}", &payload)` writes the payload verbatim plus `"\n"`. -/
def logAppend (log payload : String) : String :=
  log ++ payload ++ "\n"

/-- HTTP status of a response the handler returns:
`status::Ok` or `status::InternalServerError`. -/
inductive HStatus : Type where
  | ok : HStatus
  | internalServerError : HStatus
deriving DecidableEq, Repr

/-- Numeric status code. -/
def HStatus.code : HStatus → Nat
  | .ok => 200
  | .internalServerError => 500

/-- What a run of the handler ends in: a returned `Response::with(status)`
(whose body is the response body text, always empty here), or a panic
(an `unwrap()` on a failed address parse). -/
inductive Outcome : Type where
  | resp (status : HStatus) (body : String) : Outcome
  | panicked : Outcome
deriving DecidableEq, Repr

/-- Result of one run of `ReportHandler::handle`: its outcome, the contents
of `crashes.txt` afterwards, and the messages delivered over SMTP. -/
structure HandleResult : Type where
  outcome : Outcome
  log : String
  sent : List Email
deriving DecidableEq, Repr

/-- Outcomes of the run's external effects, one per fallible step of the
handler: `req.body.read_to_string` (`none` = I/O error), `OpenOptions::open`
on `crashes.txt`, `writeln!`, the two `Mailbox` parses
(`config.email_from.parse()` / `config.email_to.parse()`),
the `Message` builder result, and `transport.send`. -/
structure Env : Type where
  readBody : Option String
  openOk : Bool
  writeOk : Bool
  fromAddrOk : Bool
  toAddrOk : Bool
  buildOk : Bool
  sendOk : Bool
deriving DecidableEq, Repr

/-- `ReportHandler::handle`, step for step. `parse` is the external
`serde_json::from_str::<Report>` on the raw body; `log` is the prior
contents of `crashes.txt`. -/
def handle (parse : String → Option Report) (cfg : Config) (env : Env)
    (log : String) : HandleResult :=
  match env.readBody with
  | none => ⟨.resp .internalServerError "", log, []⟩
  | some payload =>
    if env.openOk then
      if env.writeOk then
        let log2 := logAppend log payload
        match parse payload with
        | none => ⟨.resp .internalServerError "", log2, []⟩
        | some report =>
          if env.fromAddrOk then
            if env.toAddrOk then
              if env.buildOk then
                if env.sendOk then
                  ⟨.resp .ok "", log2, [composeEmail cfg report]⟩
                else ⟨.resp .internalServerError "", log2, []⟩
              else ⟨.resp .internalServerError "", log2, []⟩
            else ⟨.panicked, log2, []⟩
          else ⟨.panicked, log2, []⟩
      else ⟨.resp .internalServerError "", log, []⟩
    else ⟨.resp .internalServerError "", log, []⟩

/-- First-occurrence lookup of a key among a JSON object's entries. -/
def jlookup (k : String) : List (String × Json) → Option Json
  | [] => none
  | kv :: rest => if kv.1 = k then some kv.2 else jlookup k rest

/-- The seven field names of `struct Report`. -/
def requiredFields : List String :=
  ["ANDROID_VERSION", "APP_VERSION_CODE", "APP_VERSION_NAME", "CUSTOM_DATA",
   "PACKAGE_NAME", "REPORT_ID", "STACK_TRACE"]

/-- An object entry decodes without error if, when its key is a required
field name, the corresponding field decoder accepts its value. -/
def typeOk (kv : String × Json) : Prop :=
  (kv.1 = "ANDROID_VERSION" → (asString kv.2).isSome) ∧
  (kv.1 = "APP_VERSION_CODE" → (asU64 kv.2).isSome) ∧
  (kv.1 = "APP_VERSION_NAME" → (asString kv.2).isSome) ∧
  (kv.1 = "CUSTOM_DATA" → (asCustomData kv.2).isSome) ∧
  (kv.1 = "PACKAGE_NAME" → (asString kv.2).isSome) ∧
  (kv.1 = "REPORT_ID" → (asString kv.2).isSome) ∧
  (kv.1 = "STACK_TRACE" → (asString kv.2).isSome)

/-- The visitor state has not yet recorded the field named `k`
(vacuous for an unknown field name). -/
def fieldFree (pr : PartialReport) (k : String) : Prop :=
  (k = "ANDROID_VERSION" → pr.android = none) ∧
  (k = "APP_VERSION_CODE" → pr.code = none) ∧
  (k = "APP_VERSION_NAME" → pr.name = none) ∧
  (k = "CUSTOM_DATA" → pr.custom = none) ∧
  (k = "PACKAGE_NAME" → pr.pkg = none) ∧
  (k = "REPORT_ID" → pr.rid = none) ∧
  (k = "STACK_TRACE" → pr.stack = none)

/-- A sample configuration (for concrete instantiations). -/
def cfg0 : Config :=
  ⟨"0.0.0.0", 3000, "crash@example.com", "dev@example.com",
   "smtp.example.com", 587, "user", "secret"⟩

/-- A sample parsed report with empty custom data. -/
def report0 : Report :=
  ⟨"13", 42, "1.2.3", [], "com.example.app", "ab12-cd34",
   "java.lang.NullPointerException"⟩

/-- A sample parsed report with two custom-data entries. -/
def report1 : Report :=
  { report0 with
      CUSTOM_DATA := [("DEVICE", Json.str "pixel"),
                      ("FREE_RAM", Json.num 512)] }

/-- An environment in which every external effect succeeds and the
request body reads as `payload`. -/
def envOk (payload : String) : Env :=
  ⟨some payload, true, true, true, true, true, true⟩

/-- As `envOk`, but the configured sender address fails to parse
(`config.email_from.parse()` returns `Err`, so `.unwrap()` panics). -/
def envBadFrom (payload : String) : Env :=
  ⟨some payload, true, true, false, true, true, true⟩

/-- As `envOk`, but `transport.send` fails (mail server unreachable). -/
def envSendFail (payload : String) : Env :=
  ⟨some payload, true, true, true, true, true, false⟩

/-- A JSON object carrying all seven required fields, well typed, plus one
unknown extra field. -/
def fs0 : List (String × Json) :=
  [("ANDROID_VERSION", .str "13"), ("APP_VERSION_CODE", .num 42),
   ("APP_VERSION_NAME", .str "1.2.3"),
   ("CUSTOM_DATA", .obj [("DEVICE", .str "pixel")]),
   ("PACKAGE_NAME", .str "com.example.app"), ("REPORT_ID", .str "ab12-cd34"),
   ("STACK_TRACE", .str "trace"), ("UNKNOWN_EXTRA", .bool true)]

/-- As `fs0` but with the `STACK_TRACE` field missing. -/
def fsMissing : List (String × Json) :=
  [("ANDROID_VERSION", .str "13"), ("APP_VERSION_CODE", .num 42),
   ("APP_VERSION_NAME", .str "1.2.3"), ("CUSTOM_DATA", .obj []),
   ("PACKAGE_NAME", .str "com.example.app"), ("REPORT_ID", .str "ab12-cd34")]

/-- An object whose `APP_VERSION_CODE` is a negative number. -/
def fsNeg : List (String × Json) :=
  [("APP_VERSION_CODE", .num (-7)), ("ANDROID_VERSION", .str "13")]

theorem handle_log_after_write (parse : String → Option Report)
    (cfg : Config) (env : Env) (log payload : String)
    (hb : env.readBody = some payload) (ho : env.openOk = true)
    (hw : env.writeOk = true) :
    (handle parse cfg env log).log = logAppend log payload := by
  cases hp : parse payload <;>
    cases hf : env.fromAddrOk <;> cases ht : env.toAddrOk <;>
    cases hbd : env.buildOk <;> cases hs : env.sendOk <;>
    simp [handle, hb, ho, hw, hp, hf, ht, hbd, hs]

/-- C1: for every request whose body reads as a payload that fails to
parse, the handler has already appended the raw body (plus the line
separator) to `crashes.txt` before parsing, so the run ends with the
payload in the log, a server-error response, and no mail sent. -/
theorem C1_malformed_payload_logged_no_mail
    (parse : String → Option Report) (cfg : Config) (env : Env)
    (log payload : String)
    (hb : env.readBody = some payload) (ho : env.openOk = true)
    (hw : env.writeOk = true) (hp : parse payload = none) :
    handle parse cfg env log =
      ⟨.resp .internalServerError "", logAppend log payload, []⟩ := by
  simp [handle, hb, ho, hw, hp]

/-- Witness for C1 at a concrete non-JSON payload. -/
theorem C1_malformed_payload_logged_no_mail_witness :
    handle (fun _ => none) cfg0 (envOk "not json") "" =
      ⟨.resp .internalServerError "", logAppend "" "not json", []⟩ :=
  C1_malformed_payload_logged_no_mail (fun _ => none) cfg0 (envOk "not json")
    "" "not json" rfl rfl rfl rfl

/-- C4: the subject of the composed notification is exactly
`"New crash of {PACKAGE_NAME} ({APP_VERSION_NAME})"`. -/
theorem C4_subject_format (cfg : Config) (r : Report) :
    (composeEmail cfg r).subject =
      "New crash of " ++ r.PACKAGE_NAME ++ " (" ++ r.APP_VERSION_NAME ++ ")" :=
  rfl

/-- C9: a successful log append (body read, file opened, `writeln!`
succeeded) writes exactly the raw payload verbatim followed by one line
separator, and the prior log contents are left in place as a prefix of
the new contents. -/
theorem C9_log_append_verbatim_and_append_only
    (parse : String → Option Report) (cfg : Config) (env : Env)
    (log payload : String)
    (hb : env.readBody = some payload) (ho : env.openOk = true)
    (hw : env.writeOk = true) :
    (handle parse cfg env log).log = log ++ payload ++ "\n" ∧
    ∃ t, (handle parse cfg env log).log = log ++ t := by
  have h := handle_log_after_write parse cfg env log payload hb ho hw
  exact ⟨h, payload ++ "\n", by rw [h]; simp [logAppend, String.append_assoc]⟩

/-- Witness for C9 at a concrete payload and prior log contents. -/
theorem C9_log_append_verbatim_and_append_only_witness :
    (handle (fun _ => none) cfg0 (envOk "pay") "old\n").log =
      "old\n" ++ "pay" ++ "\n" ∧
    ∃ t, (handle (fun _ => none) cfg0 (envOk "pay") "old\n").log =
      "old\n" ++ t :=
  C9_log_append_verbatim_and_append_only (fun _ => none) cfg0 (envOk "pay")
    "old\n" "pay" rfl rfl rfl

/-- C6: when every step up to mail delivery succeeds but `transport.send`
fails, the run ends with a server-error response, no message sent, and the
log entry appended earlier in the same request still present (prior side
effects are not undone; the single run makes no second delivery attempt). -/
theorem C6_mail_failure_terminal_log_kept
    (parse : String → Option Report) (cfg : Config) (env : Env)
    (log payload : String) (r : Report)
    (hb : env.readBody = some payload) (ho : env.openOk = true)
    (hw : env.writeOk = true) (hp : parse payload = some r)
    (hf : env.fromAddrOk = true) (ht : env.toAddrOk = true)
    (hbd : env.buildOk = true) (hs : env.sendOk = false) :
    handle parse cfg env log =
      ⟨.resp .internalServerError "", logAppend log payload, []⟩ ∧
    ∃ t, (handle parse cfg env log).log = log ++ t := by
  have h : handle parse cfg env log =
      ⟨.resp .internalServerError "", logAppend log payload, []⟩ := by
    simp [handle, hb, ho, hw, hp, hf, ht, hbd, hs]
  exact ⟨h, payload ++ "\n", by rw [h]; simp [logAppend, String.append_assoc]⟩

/-- Witness for C6 at a concrete request whose mail delivery fails. -/
theorem C6_mail_failure_terminal_log_kept_witness :
    handle (fun _ => some report0) cfg0 (envSendFail "pay") "old\n" =
      ⟨.resp .internalServerError "", logAppend "old\n" "pay", []⟩ ∧
    ∃ t, (handle (fun _ => some report0) cfg0 (envSendFail "pay") "old\n").log =
      "old\n" ++ t :=
  C6_mail_failure_terminal_log_kept (fun _ => some report0) cfg0
    (envSendFail "pay") "old\n" "pay" report0 rfl rfl rfl rfl rfl rfl rfl rfl

/-- C3: for a payload that parses to a report, when log append and mail
delivery succeed, one run appends exactly the payload plus one line
separator to the log (one new line, for payloads containing no separator),
sends exactly one message (the composed notification), and answers with
the success status. -/
theorem C3_valid_payload_one_line_one_mail
    (parse : String → Option Report) (cfg : Config) (env : Env)
    (log payload : String) (r : Report)
    (hb : env.readBody = some payload) (ho : env.openOk = true)
    (hw : env.writeOk = true) (hp : parse payload = some r)
    (hf : env.fromAddrOk = true) (ht : env.toAddrOk = true)
    (hbd : env.buildOk = true) (hs : env.sendOk = true) :
    handle parse cfg env log =
      ⟨.resp .ok "", logAppend log payload, [composeEmail cfg r]⟩ ∧
    ('\n' ∉ payload.data →
      (handle parse cfg env log).log.data.count '\n' =
        log.data.count '\n' + 1) := by
  have h : handle parse cfg env log =
      ⟨.resp .ok "", logAppend log payload, [composeEmail cfg r]⟩ := by
    simp [handle, hb, ho, hw, hp, hf, ht, hbd, hs]
  refine ⟨h, fun hnl => ?_⟩
  have h0 : payload.data.count '\n' = 0 := List.count_eq_zero.mpr hnl
  have h1 : ("\n" : String).data = ['\n'] := rfl
  rw [h]
  simp [logAppend, String.data_append, List.count_append, h0, h1]

/-- Witness for C3 at a concrete valid request. -/
theorem C3_valid_payload_one_line_one_mail_witness :
    handle (fun _ => some report0) cfg0 (envOk "pay") "old\n" =
      ⟨.resp .ok "", logAppend "old\n" "pay", [composeEmail cfg0 report0]⟩ ∧
    (handle (fun _ => some report0) cfg0 (envOk "pay") "old\n").log.data.count
        '\n' = ("old\n" : String).data.count '\n' + 1 :=
  ⟨(C3_valid_payload_one_line_one_mail (fun _ => some report0) cfg0
      (envOk "pay") "old\n" "pay" report0 rfl rfl rfl rfl rfl rfl rfl rfl).1,
   (C3_valid_payload_one_line_one_mail (fun _ => some report0) cfg0
      (envOk "pay") "old\n" "pay" report0 rfl rfl rfl rfl rfl rfl rfl rfl).2
     (by decide)⟩

/-- C7: every response the handler returns has an empty body, and its
status code is exactly 200 (success) or 500 (server error); no other
status distinguishes failure causes. (A run that panics returns no
response at all; that defect is C2's subject.) -/
theorem C7_empty_body_binary_status
    (parse : String → Option Report) (cfg : Config) (env : Env)
    (log : String) (s : HStatus) (b : String)
    (h : (handle parse cfg env log).outcome = .resp s b) :
    b = "" ∧ (s.code = 200 ∨ s.code = 500) := by
  cases hb : env.readBody with
  | none =>
    simp [handle, hb] at h
    obtain ⟨rfl, rfl⟩ := h
    exact ⟨rfl, by decide⟩
  | some payload =>
    cases ho : env.openOk with
    | false =>
      simp [handle, hb, ho] at h
      obtain ⟨rfl, rfl⟩ := h
      exact ⟨rfl, by decide⟩
    | true =>
      cases hw : env.writeOk with
      | false =>
        simp [handle, hb, ho, hw] at h
        obtain ⟨rfl, rfl⟩ := h
        exact ⟨rfl, by decide⟩
      | true =>
        cases hp : parse payload with
        | none =>
          simp [handle, hb, ho, hw, hp] at h
          obtain ⟨rfl, rfl⟩ := h
          exact ⟨rfl, by decide⟩
        | some r =>
          cases hf : env.fromAddrOk with
          | false => simp [handle, hb, ho, hw, hp, hf] at h
          | true =>
            cases ht : env.toAddrOk with
            | false => simp [handle, hb, ho, hw, hp, hf, ht] at h
            | true =>
              cases hbd : env.buildOk with
              | false =>
                simp [handle, hb, ho, hw, hp, hf, ht, hbd] at h
                obtain ⟨rfl, rfl⟩ := h
                exact ⟨rfl, by decide⟩
              | true =>
                cases hs : env.sendOk with
                | false =>
                  simp [handle, hb, ho, hw, hp, hf, ht, hbd, hs] at h
                  obtain ⟨rfl, rfl⟩ := h
                  exact ⟨rfl, by decide⟩
                | true =>
                  simp [handle, hb, ho, hw, hp, hf, ht, hbd, hs] at h
                  obtain ⟨rfl, rfl⟩ := h
                  exact ⟨rfl, by decide⟩

/-- Witness for C7 at a concrete all-success request. -/
theorem C7_empty_body_binary_status_witness :
    ("" : String) = "" ∧
    (HStatus.code .ok = 200 ∨ HStatus.code .ok = 500) :=
  C7_empty_body_binary_status (fun _ => some report0) cfg0 (envOk "p") ""
    .ok "" rfl

/-- C2 counterexample: with a configuration whose sender address does not
parse (`config.email_from.parse()` fails), a request whose body parses as
a report makes the handler panic on `.unwrap()` instead of mapping the
failure to a server-error response. -/
theorem C2_counterexample_panic_on_bad_address :
    (handle (fun _ => some report0) cfg0 (envBadFrom "p") "").outcome =
      Outcome.panicked := rfl

/-- C2 (amended): provided the two configured addresses parse, the
handler never raises an unhandled failure: every run returns a response
with an empty body — success or a generic server error. -/
theorem C2_no_unhandled_failure_when_addresses_parse
    (parse : String → Option Report) (cfg : Config) (env : Env)
    (log : String) (hf : env.fromAddrOk = true) (ht : env.toAddrOk = true) :
    ∃ s, (handle parse cfg env log).outcome = Outcome.resp s "" := by
  cases hb : env.readBody with
  | none => exact ⟨.internalServerError, by simp [handle, hb]⟩
  | some payload =>
    cases ho : env.openOk with
    | false => exact ⟨.internalServerError, by simp [handle, hb, ho]⟩
    | true =>
      cases hw : env.writeOk with
      | false => exact ⟨.internalServerError, by simp [handle, hb, ho, hw]⟩
      | true =>
        cases hp : parse payload with
        | none =>
          exact ⟨.internalServerError, by simp [handle, hb, ho, hw, hp]⟩
        | some r =>
          cases hbd : env.buildOk with
          | false =>
            exact ⟨.internalServerError,
              by simp [handle, hb, ho, hw, hp, hf, ht, hbd]⟩
          | true =>
            cases hs : env.sendOk with
            | false =>
              exact ⟨.internalServerError,
                by simp [handle, hb, ho, hw, hp, hf, ht, hbd, hs]⟩
            | true =>
              exact ⟨.ok, by simp [handle, hb, ho, hw, hp, hf, ht, hbd, hs]⟩

/-- Witness for amended C2 at a concrete run whose mail delivery fails. -/
theorem C2_no_unhandled_failure_when_addresses_parse_witness :
    ∃ s, (handle (fun _ => some report0) cfg0 (envSendFail "p") "").outcome =
      Outcome.resp s "" :=
  C2_no_unhandled_failure_when_addresses_parse (fun _ => some report0) cfg0
    (envSendFail "p") "" rfl rfl

/-- C8 counterexample: two structurally distinct reports — differing only
in `APP_VERSION_CODE` — compose notifications with identical subjects, so
distinctness of reports does not force distinct subjects. -/
theorem C8_counterexample_same_subject :
    ({ report0 with APP_VERSION_CODE := 100 } : Report) ≠ report0 ∧
    (composeEmail cfg0 { report0 with APP_VERSION_CODE := 100 }).subject =
      (composeEmail cfg0 report0).subject := by
  refine ⟨fun h => ?_, rfl⟩
  have h2 := congrArg Report.APP_VERSION_CODE h
  simp [report0] at h2

/-- C8 (amended): the subject is a pure function of `PACKAGE_NAME` and
`APP_VERSION_NAME` alone, and it separates two reports that agree on one
of those fields and differ in the other; reports differing only in other
fields share a subject (see the counterexample). -/
theorem C8_subject_determined_by_package_and_version
    (cfg : Config) (r1 r2 : Report) :
    (r1.PACKAGE_NAME = r2.PACKAGE_NAME →
      r1.APP_VERSION_NAME = r2.APP_VERSION_NAME →
      (composeEmail cfg r1).subject = (composeEmail cfg r2).subject) ∧
    (r1.PACKAGE_NAME = r2.PACKAGE_NAME →
      r1.APP_VERSION_NAME ≠ r2.APP_VERSION_NAME →
      (composeEmail cfg r1).subject ≠ (composeEmail cfg r2).subject) ∧
    (r1.APP_VERSION_NAME = r2.APP_VERSION_NAME →
      r1.PACKAGE_NAME ≠ r2.PACKAGE_NAME →
      (composeEmail cfg r1).subject ≠ (composeEmail cfg r2).subject) := by
  refine ⟨fun hp hn => ?_, fun hp hn heq => hn ?_, fun hn hp heq => hp ?_⟩
  · simp [composeEmail, subjectOf, hp, hn]
  · have hd := congrArg String.data heq
    simp only [composeEmail, subjectOf, String.data_append, hp,
      List.append_assoc] at hd
    have h1 := List.append_cancel_left hd
    have h2 := List.append_cancel_left h1
    have h3 := List.append_cancel_left h2
    exact String.ext (List.append_cancel_right h3)
  · have hd := congrArg String.data heq
    simp only [composeEmail, subjectOf, String.data_append, hn,
      List.append_assoc] at hd
    have h1 := List.append_cancel_left hd
    exact String.ext (List.append_cancel_right h1)

/-- Witness for amended C8: same package, different version names give
different subjects. -/
theorem C8_subject_determined_witness :
    (composeEmail cfg0 report0).subject ≠
      (composeEmail cfg0 { report0 with APP_VERSION_NAME := "9.9" }).subject :=
  (C8_subject_determined_by_package_and_version cfg0 report0
    { report0 with APP_VERSION_NAME := "9.9" }).2.1 rfl (by decide)

theorem append_ne_empty_left (s t : String) (h : s.data ≠ []) :
    s ++ t ≠ "" := by
  intro he
  apply h
  have hd := congrArg String.data he
  rw [String.data_append] at hd
  have h0 : ("" : String).data = [] := rfl
  rw [h0] at hd
  exact (List.append_eq_nil.mp hd).1

/-- C5: the composed body is, in order: the fixed preamble, the
report-identifier line, the version line combining name and numeric code,
the platform-version line, the custom-data section — present iff
`CUSTOM_DATA` is non-empty, rendering each key/value pair exactly once —
and a trailing section carrying the full stack trace verbatim. -/
theorem C5_body_structure (cfg : Config) (r : Report) :
    (composeEmail cfg r).body =
      "A new crash happened:\r\n\r\n"
        ++ ("- Report ID: " ++ r.REPORT_ID ++ "\r\n")
        ++ ("- Version: " ++ r.APP_VERSION_NAME ++ " ("
              ++ toString r.APP_VERSION_CODE ++ ")\r\n")
        ++ ("- Android version: " ++ r.ANDROID_VERSION ++ "\r\n")
        ++ customSection r.CUSTOM_DATA
        ++ ("\r\nStack trace:\r\n\r\n" ++ r.STACK_TRACE) ∧
    (customSection r.CUSTOM_DATA = "" ↔ r.CUSTOM_DATA = []) ∧
    (r.CUSTOM_DATA ≠ [] →
      customSection r.CUSTOM_DATA =
        "\r\nCustom data:\r\n\r\n"
          ++ String.join (r.CUSTOM_DATA.map customLine)) ∧
    (∀ p ∈ r.CUSTOM_DATA,
      1 ≤ (r.CUSTOM_DATA.map customLine).count (customLine p) ∧
      ((r.CUSTOM_DATA.map customLine).Nodup →
        (r.CUSTOM_DATA.map customLine).count (customLine p) = 1)) ∧
    (∃ pre, (composeEmail cfg r).body =
      pre ++ ("\r\nStack trace:\r\n\r\n" ++ r.STACK_TRACE)) := by
  refine ⟨rfl, ⟨fun h => ?_, fun h => by rw [h]; rfl⟩, fun h => ?_, ?_,
    ⟨_, rfl⟩⟩
  · rcases hcd : r.CUSTOM_DATA with _ | ⟨p, rest⟩
    · rfl
    · rw [hcd, customSection, if_neg (by simp)] at h
      exact absurd h (append_ne_empty_left _ _ (by decide))
  · rcases hcd : r.CUSTOM_DATA with _ | ⟨p, rest⟩
    · exact absurd hcd h
    · rw [customSection, if_neg (by simp)]
  · intro p hp
    exact ⟨List.count_pos_iff.mpr (List.mem_map_of_mem _ hp),
      fun hnd => List.count_eq_one_of_mem hnd (List.mem_map_of_mem _ hp)⟩

/-- Witness for C5 at a report with two custom-data entries. -/
theorem C5_body_structure_witness :
    customSection report1.CUSTOM_DATA =
      "\r\nCustom data:\r\n\r\n"
        ++ String.join (report1.CUSTOM_DATA.map customLine) ∧
    1 ≤ (report1.CUSTOM_DATA.map customLine).count
        (customLine ("DEVICE", Json.str "pixel")) :=
  ⟨(C5_body_structure cfg0 report1).2.2.1 (by simp [report1, report0]),
   ((C5_body_structure cfg0 report1).2.2.2.1 ("DEVICE", Json.str "pixel")
     (by simp [report1, report0])).1⟩

theorem stepField_frame {pr pr2 : PartialReport} {kv : String × Json}
    (h : stepField pr kv = some pr2) :
    (kv.1 ≠ "ANDROID_VERSION" → pr2.android = pr.android) ∧
    (kv.1 ≠ "APP_VERSION_CODE" → pr2.code = pr.code) ∧
    (kv.1 ≠ "APP_VERSION_NAME" → pr2.name = pr.name) ∧
    (kv.1 ≠ "CUSTOM_DATA" → pr2.custom = pr.custom) ∧
    (kv.1 ≠ "PACKAGE_NAME" → pr2.pkg = pr.pkg) ∧
    (kv.1 ≠ "REPORT_ID" → pr2.rid = pr.rid) ∧
    (kv.1 ≠ "STACK_TRACE" → pr2.stack = pr.stack) := by
  rw [stepField] at h
  by_cases h1 : kv.1 = "ANDROID_VERSION"
  · rw [if_pos h1] at h
    obtain ⟨x, _, rfl⟩ := Option.map_eq_some'.mp h
    exact ⟨fun hne => absurd h1 hne, fun _ => rfl, fun _ => rfl, fun _ => rfl,
      fun _ => rfl, fun _ => rfl, fun _ => rfl⟩
  · rw [if_neg h1] at h
    by_cases h2 : kv.1 = "APP_VERSION_CODE"
    · rw [if_pos h2] at h
      obtain ⟨x, _, rfl⟩ := Option.map_eq_some'.mp h
      exact ⟨fun _ => rfl, fun hne => absurd h2 hne, fun _ => rfl, fun _ => rfl,
        fun _ => rfl, fun _ => rfl, fun _ => rfl⟩
    · rw [if_neg h2] at h
      by_cases h3 : kv.1 = "APP_VERSION_NAME"
      · rw [if_pos h3] at h
        obtain ⟨x, _, rfl⟩ := Option.map_eq_some'.mp h
        exact ⟨fun _ => rfl, fun _ => rfl, fun hne => absurd h3 hne,
          fun _ => rfl, fun _ => rfl, fun _ => rfl, fun _ => rfl⟩
      · rw [if_neg h3] at h
        by_cases h4 : kv.1 = "CUSTOM_DATA"
        · rw [if_pos h4] at h
          obtain ⟨x, _, rfl⟩ := Option.map_eq_some'.mp h
          exact ⟨fun _ => rfl, fun _ => rfl, fun _ => rfl,
            fun hne => absurd h4 hne, fun _ => rfl, fun _ => rfl, fun _ => rfl⟩
        · rw [if_neg h4] at h
          by_cases h5 : kv.1 = "PACKAGE_NAME"
          · rw [if_pos h5] at h
            obtain ⟨x, _, rfl⟩ := Option.map_eq_some'.mp h
            exact ⟨fun _ => rfl, fun _ => rfl, fun _ => rfl, fun _ => rfl,
              fun hne => absurd h5 hne, fun _ => rfl, fun _ => rfl⟩
          · rw [if_neg h5] at h
            by_cases h6 : kv.1 = "REPORT_ID"
            · rw [if_pos h6] at h
              obtain ⟨x, _, rfl⟩ := Option.map_eq_some'.mp h
              exact ⟨fun _ => rfl, fun _ => rfl, fun _ => rfl, fun _ => rfl,
                fun _ => rfl, fun hne => absurd h6 hne, fun _ => rfl⟩
            · rw [if_neg h6] at h
              by_cases h7 : kv.1 = "STACK_TRACE"
              · rw [if_pos h7] at h
                obtain ⟨x, _, rfl⟩ := Option.map_eq_some'.mp h
                exact ⟨fun _ => rfl, fun _ => rfl, fun _ => rfl, fun _ => rfl,
                  fun _ => rfl, fun _ => rfl, fun hne => absurd h7 hne⟩
              · rw [if_neg h7] at h
                obtain rfl := Option.some.inj h
                exact ⟨fun _ => rfl, fun _ => rfl, fun _ => rfl, fun _ => rfl,
                  fun _ => rfl, fun _ => rfl, fun _ => rfl⟩

theorem fill_char_android : ∀ (fs : List (String × Json))
    (pr pr2 : PartialReport), fillFields pr fs = some pr2 →
    pr2.android = (match pr.android with
      | some a => some a
      | none => (jlookup "ANDROID_VERSION" fs).bind asString) := by
  intro fs
  induction fs with
  | nil =>
    intro pr pr2 h
    obtain rfl := Option.some.inj h
    cases ha : pr.android <;> simp [jlookup, ha]
  | cons kv rest ih =>
    intro pr pr2 h
    rw [fillFields] at h
    cases hst : stepField pr kv with
    | none => rw [hst] at h; exact absurd h (by simp)
    | some pr1 =>
      rw [hst] at h
      have hrec := ih pr1 pr2 h
      by_cases hk : kv.1 = "ANDROID_VERSION"
      · rw [stepField, if_pos hk] at hst
        obtain ⟨x, hx, rfl⟩ := Option.map_eq_some'.mp hst
        cases ha : pr.android with
        | some a0 => rw [ha] at hx; simp [setField] at hx
        | none =>
          cases has : asString kv.2 with
          | none => rw [ha, has] at hx; simp [setField] at hx
          | some s =>
            rw [ha, has] at hx
            simp [setField] at hx
            subst hx
            have h2 : pr2.android = some s := by simpa using hrec
            simp [h2, ha, jlookup, hk, has]
      · have hfr := (stepField_frame hst).1 hk
        rw [hrec, hfr, jlookup, if_neg hk]

theorem fill_char_code : ∀ (fs : List (String × Json))
    (pr pr2 : PartialReport), fillFields pr fs = some pr2 →
    pr2.code = (match pr.code with
      | some a => some a
      | none => (jlookup "APP_VERSION_CODE" fs).bind asU64) := by
  intro fs
  induction fs with
  | nil =>
    intro pr pr2 h
    obtain rfl := Option.some.inj h
    cases ha : pr.code <;> simp [jlookup, ha]
  | cons kv rest ih =>
    intro pr pr2 h
    rw [fillFields] at h
    cases hst : stepField pr kv with
    | none => rw [hst] at h; exact absurd h (by simp)
    | some pr1 =>
      rw [hst] at h
      have hrec := ih pr1 pr2 h
      by_cases hk : kv.1 = "APP_VERSION_CODE"
      · rw [stepField, if_neg (by rw [hk]; decide), if_pos hk] at hst
        obtain ⟨x, hx, rfl⟩ := Option.map_eq_some'.mp hst
        cases ha : pr.code with
        | some a0 => rw [ha] at hx; simp [setField] at hx
        | none =>
          cases has : asU64 kv.2 with
          | none => rw [ha, has] at hx; simp [setField] at hx
          | some s =>
            rw [ha, has] at hx
            simp [setField] at hx
            subst hx
            have h2 : pr2.code = some s := by simpa using hrec
            simp [h2, ha, jlookup, hk, has]
      · have hfr := (stepField_frame hst).2.1 hk
        rw [hrec, hfr, jlookup, if_neg hk]

theorem fill_char_name : ∀ (fs : List (String × Json))
    (pr pr2 : PartialReport), fillFields pr fs = some pr2 →
    pr2.name = (match pr.name with
      | some a => some a
      | none => (jlookup "APP_VERSION_NAME" fs).bind asString) := by
  intro fs
  induction fs with
  | nil =>
    intro pr pr2 h
    obtain rfl := Option.some.inj h
    cases ha : pr.name <;> simp [jlookup, ha]
  | cons kv rest ih =>
    intro pr pr2 h
    rw [fillFields] at h
    cases hst : stepField pr kv with
    | none => rw [hst] at h; exact absurd h (by simp)
    | some pr1 =>
      rw [hst] at h
      have hrec := ih pr1 pr2 h
      by_cases hk : kv.1 = "APP_VERSION_NAME"
      · rw [stepField, if_neg (by rw [hk]; decide),
          if_neg (by rw [hk]; decide), if_pos hk] at hst
        obtain ⟨x, hx, rfl⟩ := Option.map_eq_some'.mp hst
        cases ha : pr.name with
        | some a0 => rw [ha] at hx; simp [setField] at hx
        | none =>
          cases has : asString kv.2 with
          | none => rw [ha, has] at hx; simp [setField] at hx
          | some s =>
            rw [ha, has] at hx
            simp [setField] at hx
            subst hx
            have h2 : pr2.name = some s := by simpa using hrec
            simp [h2, ha, jlookup, hk, has]
      · have hfr := (stepField_frame hst).2.2.1 hk
        rw [hrec, hfr, jlookup, if_neg hk]

theorem fill_char_custom : ∀ (fs : List (String × Json))
    (pr pr2 : PartialReport), fillFields pr fs = some pr2 →
    pr2.custom = (match pr.custom with
      | some a => some a
      | none => (jlookup "CUSTOM_DATA" fs).bind asCustomData) := by
  intro fs
  induction fs with
  | nil =>
    intro pr pr2 h
    obtain rfl := Option.some.inj h
    cases ha : pr.custom <;> simp [jlookup, ha]
  | cons kv rest ih =>
    intro pr pr2 h
    rw [fillFields] at h
    cases hst : stepField pr kv with
    | none => rw [hst] at h; exact absurd h (by simp)
    | some pr1 =>
      rw [hst] at h
      have hrec := ih pr1 pr2 h
      by_cases hk : kv.1 = "CUSTOM_DATA"
      · rw [stepField, if_neg (by rw [hk]; decide),
          if_neg (by rw [hk]; decide), if_neg (by rw [hk]; decide),
          if_pos hk] at hst
        obtain ⟨x, hx, rfl⟩ := Option.map_eq_some'.mp hst
        cases ha : pr.custom with
        | some a0 => rw [ha] at hx; simp [setField] at hx
        | none =>
          cases has : asCustomData kv.2 with
          | none => rw [ha, has] at hx; simp [setField] at hx
          | some s =>
            rw [ha, has] at hx
            simp [setField] at hx
            subst hx
            have h2 : pr2.custom = some s := by simpa using hrec
            simp [h2, ha, jlookup, hk, has]
      · have hfr := (stepField_frame hst).2.2.2.1 hk
        rw [hrec, hfr, jlookup, if_neg hk]

theorem fill_char_pkg : ∀ (fs : List (String × Json))
    (pr pr2 : PartialReport), fillFields pr fs = some pr2 →
    pr2.pkg = (match pr.pkg with
      | some a => some a
      | none => (jlookup "PACKAGE_NAME" fs).bind asString) := by
  intro fs
  induction fs with
  | nil =>
    intro pr pr2 h
    obtain rfl := Option.some.inj h
    cases ha : pr.pkg <;> simp [jlookup, ha]
  | cons kv rest ih =>
    intro pr pr2 h
    rw [fillFields] at h
    cases hst : stepField pr kv with
    | none => rw [hst] at h; exact absurd h (by simp)
    | some pr1 =>
      rw [hst] at h
      have hrec := ih pr1 pr2 h
      by_cases hk : kv.1 = "PACKAGE_NAME"
      · rw [stepField, if_neg (by rw [hk]; decide),
          if_neg (by rw [hk]; decide), if_neg (by rw [hk]; decide),
          if_neg (by rw [hk]; decide), if_pos hk] at hst
        obtain ⟨x, hx, rfl⟩ := Option.map_eq_some'.mp hst
        cases ha : pr.pkg with
        | some a0 => rw [ha] at hx; simp [setField] at hx
        | none =>
          cases has : asString kv.2 with
          | none => rw [ha, has] at hx; simp [setField] at hx
          | some s =>
            rw [ha, has] at hx
            simp [setField] at hx
            subst hx
            have h2 : pr2.pkg = some s := by simpa using hrec
            simp [h2, ha, jlookup, hk, has]
      · have hfr := (stepField_frame hst).2.2.2.2.1 hk
        rw [hrec, hfr, jlookup, if_neg hk]

theorem fill_char_rid : ∀ (fs : List (String × Json))
    (pr pr2 : PartialReport), fillFields pr fs = some pr2 →
    pr2.rid = (match pr.rid with
      | some a => some a
      | none => (jlookup "REPORT_ID" fs).bind asString) := by
  intro fs
  induction fs with
  | nil =>
    intro pr pr2 h
    obtain rfl := Option.some.inj h
    cases ha : pr.rid <;> simp [jlookup, ha]
  | cons kv rest ih =>
    intro pr pr2 h
    rw [fillFields] at h
    cases hst : stepField pr kv with
    | none => rw [hst] at h; exact absurd h (by simp)
    | some pr1 =>
      rw [hst] at h
      have hrec := ih pr1 pr2 h
      by_cases hk : kv.1 = "REPORT_ID"
      · rw [stepField, if_neg (by rw [hk]; decide),
          if_neg (by rw [hk]; decide), if_neg (by rw [hk]; decide),
          if_neg (by rw [hk]; decide), if_neg (by rw [hk]; decide),
          if_pos hk] at hst
        obtain ⟨x, hx, rfl⟩ := Option.map_eq_some'.mp hst
        cases ha : pr.rid with
        | some a0 => rw [ha] at hx; simp [setField] at hx
        | none =>
          cases has : asString kv.2 with
          | none => rw [ha, has] at hx; simp [setField] at hx
          | some s =>
            rw [ha, has] at hx
            simp [setField] at hx
            subst hx
            have h2 : pr2.rid = some s := by simpa using hrec
            simp [h2, ha, jlookup, hk, has]
      · have hfr := (stepField_frame hst).2.2.2.2.2.1 hk
        rw [hrec, hfr, jlookup, if_neg hk]

theorem fill_char_stack : ∀ (fs : List (String × Json))
    (pr pr2 : PartialReport), fillFields pr fs = some pr2 →
    pr2.stack = (match pr.stack with
      | some a => some a
      | none => (jlookup "STACK_TRACE" fs).bind asString) := by
  intro fs
  induction fs with
  | nil =>
    intro pr pr2 h
    obtain rfl := Option.some.inj h
    cases ha : pr.stack <;> simp [jlookup, ha]
  | cons kv rest ih =>
    intro pr pr2 h
    rw [fillFields] at h
    cases hst : stepField pr kv with
    | none => rw [hst] at h; exact absurd h (by simp)
    | some pr1 =>
      rw [hst] at h
      have hrec := ih pr1 pr2 h
      by_cases hk : kv.1 = "STACK_TRACE"
      · rw [stepField, if_neg (by rw [hk]; decide),
          if_neg (by rw [hk]; decide), if_neg (by rw [hk]; decide),
          if_neg (by rw [hk]; decide), if_neg (by rw [hk]; decide),
          if_neg (by rw [hk]; decide), if_pos hk] at hst
        obtain ⟨x, hx, rfl⟩ := Option.map_eq_some'.mp hst
        cases ha : pr.stack with
        | some a0 => rw [ha] at hx; simp [setField] at hx
        | none =>
          cases has : asString kv.2 with
          | none => rw [ha, has] at hx; simp [setField] at hx
          | some s =>
            rw [ha, has] at hx
            simp [setField] at hx
            subst hx
            have h2 : pr2.stack = some s := by simpa using hrec
            simp [h2, ha, jlookup, hk, has]
      · have hfr := (stepField_frame hst).2.2.2.2.2.2 hk
        rw [hrec, hfr, jlookup, if_neg hk]

theorem stepField_total {pr : PartialReport} {kv : String × Json}
    (ht : typeOk kv) (hf : fieldFree pr kv.1) :
    ∃ pr1, stepField pr kv = some pr1 := by
  obtain ⟨t1, t2, t3, t4, t5, t6, t7⟩ := ht
  obtain ⟨f1, f2, f3, f4, f5, f6, f7⟩ := hf
  rw [stepField]
  by_cases h1 : kv.1 = "ANDROID_VERSION"
  · rw [if_pos h1, f1 h1]
    obtain ⟨s, hs⟩ := Option.isSome_iff_exists.mp (t1 h1)
    rw [hs]
    exact ⟨_, rfl⟩
  · rw [if_neg h1]
    by_cases h2 : kv.1 = "APP_VERSION_CODE"
    · rw [if_pos h2, f2 h2]
      obtain ⟨s, hs⟩ := Option.isSome_iff_exists.mp (t2 h2)
      rw [hs]
      exact ⟨_, rfl⟩
    · rw [if_neg h2]
      by_cases h3 : kv.1 = "APP_VERSION_NAME"
      · rw [if_pos h3, f3 h3]
        obtain ⟨s, hs⟩ := Option.isSome_iff_exists.mp (t3 h3)
        rw [hs]
        exact ⟨_, rfl⟩
      · rw [if_neg h3]
        by_cases h4 : kv.1 = "CUSTOM_DATA"
        · rw [if_pos h4, f4 h4]
          obtain ⟨s, hs⟩ := Option.isSome_iff_exists.mp (t4 h4)
          rw [hs]
          exact ⟨_, rfl⟩
        · rw [if_neg h4]
          by_cases h5 : kv.1 = "PACKAGE_NAME"
          · rw [if_pos h5, f5 h5]
            obtain ⟨s, hs⟩ := Option.isSome_iff_exists.mp (t5 h5)
            rw [hs]
            exact ⟨_, rfl⟩
          · rw [if_neg h5]
            by_cases h6 : kv.1 = "REPORT_ID"
            · rw [if_pos h6, f6 h6]
              obtain ⟨s, hs⟩ := Option.isSome_iff_exists.mp (t6 h6)
              rw [hs]
              exact ⟨_, rfl⟩
            · rw [if_neg h6]
              by_cases h7 : kv.1 = "STACK_TRACE"
              · rw [if_pos h7, f7 h7]
                obtain ⟨s, hs⟩ := Option.isSome_iff_exists.mp (t7 h7)
                rw [hs]
                exact ⟨_, rfl⟩
              · rw [if_neg h7]
                exact ⟨pr, rfl⟩

theorem fieldFree_preserved {pr pr1 : PartialReport} {kv : String × Json}
    {k2 : String} (hst : stepField pr kv = some pr1) (hne : k2 ≠ kv.1)
    (hf : fieldFree pr k2) : fieldFree pr1 k2 := by
  obtain ⟨f1, f2, f3, f4, f5, f6, f7⟩ := hf
  have fr := stepField_frame hst
  exact ⟨fun h => (fr.1 fun hkv => hne (h.trans hkv.symm)).trans (f1 h),
    fun h => (fr.2.1 fun hkv => hne (h.trans hkv.symm)).trans (f2 h),
    fun h => (fr.2.2.1 fun hkv => hne (h.trans hkv.symm)).trans (f3 h),
    fun h => (fr.2.2.2.1 fun hkv => hne (h.trans hkv.symm)).trans (f4 h),
    fun h => (fr.2.2.2.2.1 fun hkv => hne (h.trans hkv.symm)).trans (f5 h),
    fun h => (fr.2.2.2.2.2.1 fun hkv => hne (h.trans hkv.symm)).trans (f6 h),
    fun h => (fr.2.2.2.2.2.2 fun hkv => hne (h.trans hkv.symm)).trans (f7 h)⟩

theorem fill_total : ∀ (fs : List (String × Json)) (pr : PartialReport),
    (fs.map Prod.fst).Nodup → (∀ kv ∈ fs, typeOk kv) →
    (∀ kv ∈ fs, fieldFree pr kv.1) →
    ∃ pr2, fillFields pr fs = some pr2 := by
  intro fs
  induction fs with
  | nil => exact fun pr _ _ _ => ⟨pr, rfl⟩
  | cons kv rest ih =>
    intro pr hnd htype hfree
    rw [List.map_cons, List.nodup_cons] at hnd
    obtain ⟨pr1, hst⟩ := stepField_total (htype kv (List.mem_cons_self _ _))
      (hfree kv (List.mem_cons_self _ _))
    obtain ⟨pr2, hfill⟩ := ih pr1 hnd.2
      (fun kv2 h2 => htype kv2 (List.mem_cons_of_mem _ h2))
      (fun kv2 h2 => fieldFree_preserved hst
        (fun he => hnd.1 (he ▸ List.mem_map_of_mem Prod.fst h2))
        (hfree kv2 (List.mem_cons_of_mem _ h2)))
    exact ⟨pr2, by rw [fillFields, hst]; exact hfill⟩

theorem jlookup_of_mem_nodup : ∀ (fs : List (String × Json))
    (kv : String × Json), (fs.map Prod.fst).Nodup → kv ∈ fs →
    jlookup kv.1 fs = some kv.2 := by
  intro fs
  induction fs with
  | nil => intro kv _ h; cases h
  | cons hd rest ih =>
    intro kv hnd hmem
    rw [List.map_cons, List.nodup_cons] at hnd
    rcases List.mem_cons.mp hmem with rfl | hmem2
    · simp [jlookup]
    · rw [jlookup, if_neg (fun he => hnd.1
        (by rw [he]; exact List.mem_map_of_mem Prod.fst hmem2))]
      exact ih kv hnd.2 hmem2

theorem fill_none_of_bad_code : ∀ (fs : List (String × Json))
    (pr : PartialReport) (v : Json), ("APP_VERSION_CODE", v) ∈ fs →
    asU64 v = none → fillFields pr fs = none := by
  intro fs
  induction fs with
  | nil => intro pr v h _; cases h
  | cons kv rest ih =>
    intro pr v hmem hbad
    rcases List.mem_cons.mp hmem with he | hmem2
    · subst he
      rw [fillFields]
      cases hc : pr.code <;> simp [stepField, setField, hbad, hc]
    · rw [fillFields]
      cases hst : stepField pr kv with
      | none => rfl
      | some pr1 => exact ih pr1 v hmem2 hbad

theorem mkReport_eq_none {pr : PartialReport}
    (h : pr.android = none ∨ pr.code = none ∨ pr.name = none ∨
      pr.custom = none ∨ pr.pkg = none ∨ pr.rid = none ∨ pr.stack = none) :
    mkReport pr = none := by
  obtain ⟨a, c, n, cd, p, ri, st⟩ := pr
  simp only [] at h
  rcases a <;> rcases c <;> rcases n <;> rcases cd <;> rcases p <;>
    rcases ri <;> rcases st <;> simp [mkReport] <;> simp_all

/-- C10: on a JSON object with distinct keys, decoding accepts any object
carrying the seven required fields with the required types — unknown extra
fields are ignored and the resulting report is determined by the seven
fields alone — while an object missing a required field, or whose
`APP_VERSION_CODE` is a negative number, fails to decode. -/
theorem C10_decode_required_fields (fs : List (String × Json))
    (hnd : (fs.map Prod.fst).Nodup) :
    (∀ (av : String) (code : Int) (avn : String)
      (cd : List (String × Json)) (pkg rid st : String),
      jlookup "ANDROID_VERSION" fs = some (.str av) →
      jlookup "APP_VERSION_CODE" fs = some (.num code) →
      0 ≤ code → code < 2 ^ 64 →
      jlookup "APP_VERSION_NAME" fs = some (.str avn) →
      jlookup "CUSTOM_DATA" fs = some (.obj cd) →
      jlookup "PACKAGE_NAME" fs = some (.str pkg) →
      jlookup "REPORT_ID" fs = some (.str rid) →
      jlookup "STACK_TRACE" fs = some (.str st) →
      reportFromJson (.obj fs) =
        some ⟨av, code.toNat, avn, hmFromList cd, pkg, rid, st⟩) ∧
    (∀ name ∈ requiredFields, jlookup name fs = none →
      reportFromJson (.obj fs) = none) ∧
    (∀ n : Int, n < 0 → ("APP_VERSION_CODE", Json.num n) ∈ fs →
      reportFromJson (.obj fs) = none) := by
  refine ⟨?_, ?_, ?_⟩
  · intro av code avn cd pkg rid st hav hcode hc0 hc64 havn hcd hpkg hrid hst
    have htype : ∀ kv ∈ fs, typeOk kv := by
      intro kv hkv
      have hl := jlookup_of_mem_nodup fs kv hnd hkv
      refine ⟨fun h => ?_, fun h => ?_, fun h => ?_, fun h => ?_, fun h => ?_,
        fun h => ?_, fun h => ?_⟩
      · rw [h, hav] at hl
        rw [(Option.some.inj hl).symm]
        rfl
      · rw [h, hcode] at hl
        rw [(Option.some.inj hl).symm, asU64, if_pos ⟨hc0, hc64⟩]
        rfl
      · rw [h, havn] at hl
        rw [(Option.some.inj hl).symm]
        rfl
      · rw [h, hcd] at hl
        rw [(Option.some.inj hl).symm]
        simp [asCustomData]
      · rw [h, hpkg] at hl
        rw [(Option.some.inj hl).symm]
        rfl
      · rw [h, hrid] at hl
        rw [(Option.some.inj hl).symm]
        rfl
      · rw [h, hst] at hl
        rw [(Option.some.inj hl).symm]
        rfl
    have hfree : ∀ kv ∈ fs, fieldFree emptyPartial kv.1 :=
      fun kv _ => ⟨fun _ => rfl, fun _ => rfl, fun _ => rfl, fun _ => rfl,
        fun _ => rfl, fun _ => rfl, fun _ => rfl⟩
    obtain ⟨pr2, hfill⟩ := fill_total fs emptyPartial hnd htype hfree
    have e1 : pr2.android = some av := by
      simpa [emptyPartial, hav, asString]
        using fill_char_android fs emptyPartial pr2 hfill
    have e2 : pr2.code = some code.toNat := by
      have h2 := fill_char_code fs emptyPartial pr2 hfill
      rw [hcode] at h2
      simp only [emptyPartial, Option.some_bind] at h2
      rw [asU64, if_pos ⟨hc0, hc64⟩] at h2
      exact h2
    have e3 : pr2.name = some avn := by
      simpa [emptyPartial, havn, asString]
        using fill_char_name fs emptyPartial pr2 hfill
    have e4 : pr2.custom = some (hmFromList cd) := by
      simpa [emptyPartial, hcd, asCustomData]
        using fill_char_custom fs emptyPartial pr2 hfill
    have e5 : pr2.pkg = some pkg := by
      simpa [emptyPartial, hpkg, asString]
        using fill_char_pkg fs emptyPartial pr2 hfill
    have e6 : pr2.rid = some rid := by
      simpa [emptyPartial, hrid, asString]
        using fill_char_rid fs emptyPartial pr2 hfill
    have e7 : pr2.stack = some st := by
      simpa [emptyPartial, hst, asString]
        using fill_char_stack fs emptyPartial pr2 hfill
    simp [reportFromJson, hfill, mkReport, e1, e2, e3, e4, e5, e6, e7]
  · intro name hname hnone
    cases hfill : fillFields emptyPartial fs with
    | none => simp [reportFromJson, hfill]
    | some pr2 =>
      have hmk : mkReport pr2 = none := by
        rcases (show name = "ANDROID_VERSION" ∨ name = "APP_VERSION_CODE" ∨
            name = "APP_VERSION_NAME" ∨ name = "CUSTOM_DATA" ∨
            name = "PACKAGE_NAME" ∨ name = "REPORT_ID" ∨
            name = "STACK_TRACE" from by
          simpa [requiredFields] using hname) with
          rfl | rfl | rfl | rfl | rfl | rfl | rfl
        · exact mkReport_eq_none (Or.inl (by
            simpa [emptyPartial, hnone]
              using fill_char_android fs emptyPartial pr2 hfill))
        · exact mkReport_eq_none (Or.inr (Or.inl (by
            simpa [emptyPartial, hnone]
              using fill_char_code fs emptyPartial pr2 hfill)))
        · exact mkReport_eq_none (Or.inr (Or.inr (Or.inl (by
            simpa [emptyPartial, hnone]
              using fill_char_name fs emptyPartial pr2 hfill))))
        · exact mkReport_eq_none (Or.inr (Or.inr (Or.inr (Or.inl (by
            simpa [emptyPartial, hnone]
              using fill_char_custom fs emptyPartial pr2 hfill)))))
        · exact mkReport_eq_none (Or.inr (Or.inr (Or.inr (Or.inr (Or.inl (by
            simpa [emptyPartial, hnone]
              using fill_char_pkg fs emptyPartial pr2 hfill))))))
        · exact mkReport_eq_none (Or.inr (Or.inr (Or.inr (Or.inr (Or.inr
            (Or.inl (by simpa [emptyPartial, hnone]
              using fill_char_rid fs emptyPartial pr2 hfill)))))))
        · exact mkReport_eq_none (Or.inr (Or.inr (Or.inr (Or.inr (Or.inr
            (Or.inr (by simpa [emptyPartial, hnone]
              using fill_char_stack fs emptyPartial pr2 hfill)))))))
      simp [reportFromJson, hfill, hmk]
  · intro n hneg hmem
    have hbad : asU64 (Json.num n) = none := by
      have hnc : ¬(0 ≤ n ∧ n < 2 ^ 64) := fun hc => absurd hc.1 (not_le.mpr hneg)
      rw [asU64, if_neg hnc]
    have hfn := fill_none_of_bad_code fs emptyPartial (Json.num n) hmem hbad
    simp [reportFromJson, hfn]

/-- Witness for C10: a well-typed object with an extra field decodes to
the expected report; an object missing `STACK_TRACE` and an object with a
negative `APP_VERSION_CODE` fail to decode. -/
theorem C10_decode_required_fields_witness :
    reportFromJson (.obj fs0) =
      some ⟨"13", (42 : Int).toNat, "1.2.3",
        hmFromList [("DEVICE", Json.str "pixel")], "com.example.app",
        "ab12-cd34", "trace"⟩ ∧
    reportFromJson (.obj fsMissing) = none ∧
    reportFromJson (.obj fsNeg) = none :=
  ⟨(C10_decode_required_fields fs0 (by decide)).1 "13" 42 "1.2.3"
      [("DEVICE", Json.str "pixel")] "com.example.app" "ab12-cd34" "trace"
      rfl rfl (by decide) (by decide) rfl rfl rfl rfl rfl,
   (C10_decode_required_fields fsMissing (by decide)).2.1 "STACK_TRACE"
      (by decide) rfl,
   (C10_decode_required_fields fsNeg (by decide)).2.2 (-7) (by decide)
      (List.mem_cons_self _ _)⟩

end Acra
